import Mathlib

/-!
Shallow embedding of `src/app.py` (a Flask + SQLAlchemy CRUD service over two
mirrored tables, `index_entries` and `list_contents`, plus an independent
`editor_contents` store).

Modelling conventions:
* A database table is a `List` of row structures; the primary-key discipline of
  the real store is carried as explicit hypotheses where a proof needs it.
* Entity ids (UUID strings in the source) are opaque; they are modelled as
  `Nat`.  Timestamps (`datetime`) are modelled as `Nat` with the usual order.
* `content_json` (a JSONB column the server never inspects) is modelled as a
  small structural JSON value.
* A request body (a Python dict) is a structure of `Option` fields: `none`
  means the key is absent.  Where the source distinguishes a key that is
  present with value `null` from an absent key (`"order" in d and
  d["order"] is not None`), the field is `Option (Option _)`.
* `abort(code)` and uncaught Python exceptions are modelled as `Except`
  errors: `invalidArgument` is `abort(400, msg)`, `notFound` is
  `abort(404)` / `get_or_404`, and `keyError k` is an uncaught `KeyError`
  from `d[k]` (which surfaces as an HTTP 500, not a 400).
* Each handler commits one transaction; on an abort the session is rolled
  back, so an erroring handler leaves the store unchanged.  Handlers are
  therefore `Store → ... → Except ApiError (Store × response)`.
-/

namespace SystemApp

/-- The opaque `content_json` payload: an arbitrary structured document the
server never inspects, modelled as its serialized form (spec: an opaque
blob); structural equality of documents is equality of blobs. -/
structure Json where
  blob : String
deriving DecidableEq

/-- The empty JSON object, the `content_json` default in `create_entity`. -/
def Json.emptyObj : Json := ⟨"\x7b\x7d"⟩

/-- One row of `index_entries` (class `IndexEntry` in app.py). -/
structure IndexEntry where
  id : Nat
  kind : String
  container_id : Option Nat
  name : String
  emoji : Option String
  color : Int
  order : Int
  opened_at : Option Nat
  updated_at : Nat
deriving DecidableEq

/-- One row of `list_contents` (class `ListContent` in app.py). -/
structure ListContent where
  id : Nat
  container_id : Option Nat
  order : Int
  content_json : Json
  updated_at : Nat
deriving DecidableEq

/-- The relational store: the two entity tables the claims are about. -/
structure Store where
  index_entries : List IndexEntry
  list_contents : List ListContent
deriving DecidableEq

/-- How a handler fails: `abort(400, msg)`, `abort(404)`, or an uncaught
`KeyError` from `d[key]` (HTTP 500). -/
inductive ApiError where
  | invalidArgument (msg : String)
  | notFound
  | keyError (key : String)
deriving DecidableEq

/-- The SQL expression `coalesce(max(IndexEntry.order), -1) + 1` over rows with the given
`container_id` (`_next_order_for_container` in app.py).  Note the source
coalesces the SQL `max` (NULL only when the sibling group is empty); it does
not clamp an existing maximum below `-1`. -/
def _next_order_for_container (s : Store) (container_id : Option Nat) : Int :=
  match (s.index_entries.filter
      (fun e => e.container_id = container_id)).map (fun e => e.order) with
  | [] => (-1 : Int) + 1
  | x :: xs => xs.foldl max x + 1

/-- Body of `POST /entities`.  `none` = key absent; for `container_id` and
`order` the source uses `d.get`, so an explicit JSON `null` and an absent key
coincide.  `name` is read with `d["name"]`, so `none` means the key is absent
and a `KeyError` is raised.  (A present `"name": null` would instead fail at
commit time with a database NOT NULL violation; that path is not modelled.) -/
structure CreateReq where
  kind : Option String
  name : Option String
  emoji : Option String
  color : Option Int
  content_json : Option Json
  container_id : Option Nat
  order : Option Int

/-- Successful response of `POST /entities` (status 201). -/
structure CreateResp where
  id : Nat
  kind : String
  container_id : Option Nat
  order : Int
deriving DecidableEq

/-- The `kind not in ("project", "process", "list")` test (note `d.get` may
have returned no value at all, which also fails the membership test). -/
def kindOk (kind : Option String) : Bool :=
  kind = some "project" || kind = some "process" || kind = some "list"

/-- Handler `create_entity` (POST /entities).  `uuid4` is the freshly generated id and
`now` the current timestamp, passed explicitly. -/
def create_entity (s : Store) (d : CreateReq) (uuid4 : Nat) (now : Nat) :
    Except ApiError (Store × CreateResp) :=
  if kindOk d.kind = false then
    .error (.invalidArgument "kind must be project | process | list")
  else
    match d.name with
    | none => .error (.keyError "name")
    | some name =>
      let color := d.color.getD 0xFF6AA6FF
      let content_json := d.content_json.getD Json.emptyObj
      let container_id := d.container_id
      if (d.kind = some "project" || d.kind = some "process") &&
          !(container_id = none) then
        .error (.invalidArgument "containers cannot have container_id")
      else
        let effective_order :=
          match d.order with
          | some o => o
          | none => _next_order_for_container s container_id
        let kind := d.kind.getD ""
        let idx : IndexEntry :=
          { id := uuid4, kind := kind, container_id := container_id,
            name := name, emoji := d.emoji, color := color,
            order := effective_order, opened_at := some now,
            updated_at := now }
        let lc : ListContent :=
          { id := uuid4, container_id := container_id,
            order := effective_order, content_json := content_json,
            updated_at := now }
        .ok ({ index_entries := s.index_entries ++ [idx],
               list_contents := s.list_contents ++ [lc] },
             { id := uuid4, kind := kind, container_id := container_id,
               order := effective_order })

/-- Ids of rows acquired by one round of the `ON DELETE CASCADE` foreign key
on `index_entries.container_id`: children of already-deleted ids. -/
def childIds (rows : List IndexEntry) (ids : List Nat) : List Nat :=
  (rows.filter (fun e =>
      (match e.container_id with
       | some c => decide (c ∈ ids)
       | none => false) && decide (e.id ∉ ids))).map (fun e => e.id)

/-- Iterate the cascade to a fixed point (fuel-bounded). -/
def cascadeIter : Nat → List IndexEntry → List Nat → List Nat
  | 0, _, ids => ids
  | n + 1, rows, ids =>
    let nw := childIds rows ids
    if nw = [] then ids else cascadeIter n rows (ids ++ nw)

/-- The set of `index_entries` ids removed by `DELETE FROM index_entries
WHERE id = eid` together with the recursive foreign-key cascade.  When no row
matches, nothing is deleted and nothing cascades. -/
def deletedIds (s : Store) (eid : Nat) : List Nat :=
  if s.index_entries.any (fun e => e.id = eid) then
    cascadeIter (s.index_entries.length + 1) s.index_entries [eid]
  else []

/-- Handler `delete_entity` (DELETE /entities/id).  `list_contents` rows cascade both
through their `id` foreign key and their `container_id` foreign key.  Always
returns `ok = true`. -/
def delete_entity (s : Store) (eid : Nat) : Store × Bool :=
  let del := deletedIds s eid
  ({ index_entries := s.index_entries.filter (fun e => decide (e.id ∉ del)),
     list_contents := s.list_contents.filter (fun c =>
        decide (c.id ∉ del) &&
        (match c.container_id with
         | some cc => decide (cc ∉ del)
         | none => true)) },
   true)

/-- Successful response of `GET /content/id`. -/
structure ContentResp where
  id : Nat
  container_id : Option Nat
  order : Int
  content_json : Json
  updated_at : Nat
deriving DecidableEq

/-- Handler `get_content` (GET /content/id): `ListContent.query.get_or_404`. -/
def get_content (s : Store) (entity_id : Nat) : Except ApiError ContentResp :=
  match s.list_contents.find? (fun c => c.id = entity_id) with
  | none => .error .notFound
  | some row =>
    .ok { id := row.id, container_id := row.container_id, order := row.order,
          content_json := row.content_json, updated_at := row.updated_at }

/-- Body of `PUT /content/id`.  `order = none`: key absent;
`order = some none`: key present with JSON `null`. -/
structure UpdateContentReq where
  content_json : Option Json
  order : Option (Option Int)

/-- The guard `"order" in d and d["order"] is not None`, as the effective
order argument: `some v` exactly when the key is present and non-null. -/
def orderArg : Option (Option Int) → Option Int
  | some (some v) => some v
  | _ => none

/-- Handler `update_content` (PUT /content/id): overwrite `content_json`, bump both
`updated_at`s, and propagate `order` to both tables when present and
non-null.  404 when no `list_contents` row matches. -/
def update_content (s : Store) (entity_id : Nat) (d : UpdateContentReq)
    (now : Nat) : Except ApiError (Store × Nat) :=
  match d.content_json with
  | none => .error (.invalidArgument "content_json required")
  | some cj =>
    if s.list_contents.all (fun c => decide (c.id ≠ entity_id)) then
      .error .notFound
    else
      let newOrder := orderArg d.order
      .ok ({ index_entries := s.index_entries.map (fun e =>
               if e.id = entity_id then
                 { e with order := newOrder.getD e.order, updated_at := now }
               else e),
             list_contents := s.list_contents.map (fun c =>
               if c.id = entity_id then
                 { c with content_json := cj, updated_at := now,
                          order := newOrder.getD c.order }
               else c) },
           now)

/-- Body of `PUT /entities/id`.  `name`/`color` use `if k in d` on the source
side; a present `null` for them is not modelled (it would violate NOT NULL /
store NULL respectively), while `emoji` is a nullable column so its present
value is itself an `Option`.  `mark_opened` models the truthiness test
`d.get("mark_opened")` (absent = falsy). -/
structure UpdateMetaReq where
  name : Option String
  emoji : Option (Option String)
  color : Option Int
  mark_opened : Bool
  order : Option (Option Int)

/-- The `updates` dict of `update_entity_meta` applied to one row. -/
def applyMetaUpdates (d : UpdateMetaReq) (now : Nat) (e : IndexEntry) :
    IndexEntry :=
  { e with
    name := d.name.getD e.name,
    emoji := match d.emoji with
             | some v => v
             | none => e.emoji,
    color := d.color.getD e.color,
    opened_at := if d.mark_opened then some now else e.opened_at,
    order := (orderArg d.order).getD e.order,
    updated_at := now }

/-- Handler `update_entity_meta` (PUT /entities/id).  Applies only provided fields,
always bumps `updated_at`; when `order` is present and non-null it also
writes `order`/`updated_at` to `list_contents`.  When no `index_entries` row
matches, the handler aborts 404 and the transaction rolls back, so the
`list_contents` write never becomes visible. -/
def update_entity_meta (s : Store) (entity_id : Nat) (d : UpdateMetaReq)
    (now : Nat) : Except ApiError (Store × Nat) :=
  if s.index_entries.all (fun e => decide (e.id ≠ entity_id)) then
    .error .notFound
  else
    .ok ({ index_entries := s.index_entries.map (fun e =>
             if e.id = entity_id then applyMetaUpdates d now e else e),
           list_contents :=
             match orderArg d.order with
             | some v => s.list_contents.map (fun c =>
                 if c.id = entity_id then
                   { c with order := v, updated_at := now }
                 else c)
             | none => s.list_contents },
         now)

/-- Body of `PUT /entities/id/order`: `none` = key absent (abort 400).  (A
present `"order": null` would raise a `TypeError` in `int(None)`; that 500
path is not modelled.) -/
structure UpdateOrderReq where
  order : Option Int

/-- Handler `update_entity_order` (PUT /entities/id/order): write `order` and the
bumped `updated_at` to both tables; 404 (rolled back) when no
`index_entries` row matches. -/
def update_entity_order (s : Store) (entity_id : Nat) (d : UpdateOrderReq)
    (now : Nat) : Except ApiError (Store × Nat × Int) :=
  match d.order with
  | none => .error (.invalidArgument "order required")
  | some new_order =>
    if s.index_entries.all (fun e => decide (e.id ≠ entity_id)) then
      .error .notFound
    else
      .ok ({ index_entries := s.index_entries.map (fun e =>
               if e.id = entity_id then
                 { e with order := new_order, updated_at := now }
               else e),
             list_contents := s.list_contents.map (fun c =>
               if c.id = entity_id then
                 { c with order := new_order, updated_at := now }
               else c) },
           now, new_order)

/-- The comparison `container_id ASC` as a strict comparison on the nullable column
(ascending with NULLs last, the PostgreSQL default). -/
def cidLt : Option Nat → Option Nat → Bool
  | some a, some b => decide (a < b)
  | some _, none => true
  | none, _ => false

/-- The ORDER BY of `GET /index?sort=order`: `container_id ASC, order ASC,
updated_at DESC`. -/
def idxLe (a b : IndexEntry) : Bool :=
  if a.container_id = b.container_id then
    if a.order = b.order then decide (b.updated_at ≤ a.updated_at)
    else decide (a.order < b.order)
  else cidLt a.container_id b.container_id

/-- The default ORDER BY of `GET /index`: `updated_at DESC`. -/
def updLe (a b : IndexEntry) : Bool :=
  decide (b.updated_at ≤ a.updated_at)

/-- Handler `get_index` (GET /index).  `updated_since = none` models an absent (or
empty, hence falsy) parameter; when present the filter is strict
(`updated_at > ts`).  Any `sort` other than `"order"` falls back to
`updated_at DESC`. -/
def get_index (s : Store) (updated_since : Option Nat) (sort : String) :
    List IndexEntry :=
  let q : List IndexEntry := match updated_since with
    | some ts => s.index_entries.filter (fun e => decide (ts < e.updated_at))
    | none => s.index_entries
  if sort = "order" then q.mergeSort idxLe
  else q.mergeSort updLe

/-! ### Inversion lemmas for successful operations -/

/-- Inverting a successful `create_entity`: the request validated, and both
tables got one appended row sharing id, container and order. -/
theorem create_entity_ok {s : Store} {d : CreateReq} {uuid4 now : Nat}
    {s' : Store} {r : CreateResp}
    (hok : create_entity s d uuid4 now = .ok (s', r)) :
    ∃ name, d.name = some name ∧ kindOk d.kind = true ∧
      r.id = uuid4 ∧ r.kind = d.kind.getD "" ∧
      r.container_id = d.container_id ∧
      r.order = (match d.order with
                 | some o => o
                 | none => _next_order_for_container s d.container_id) ∧
      s'.index_entries = s.index_entries ++
        [{ id := uuid4, kind := d.kind.getD "",
           container_id := d.container_id, name := name, emoji := d.emoji,
           color := d.color.getD 0xFF6AA6FF, order := r.order,
           opened_at := some now, updated_at := now }] ∧
      s'.list_contents = s.list_contents ++
        [{ id := uuid4, container_id := d.container_id, order := r.order,
           content_json := d.content_json.getD Json.emptyObj,
           updated_at := now }] := by
  unfold create_entity at hok
  split at hok
  · exact Except.noConfusion hok
  · rename_i hkind
    cases hname : d.name with
    | none => rw [hname] at hok; exact Except.noConfusion hok
    | some name =>
      rw [hname] at hok
      simp only at hok
      split at hok
      · exact Except.noConfusion hok
      · simp only [Except.ok.injEq, Prod.mk.injEq] at hok
        obtain ⟨hs, hr⟩ := hok
        subst hs; subst hr
        refine ⟨name, rfl, by simpa using hkind, rfl, rfl, rfl, rfl, rfl, rfl⟩

/-- Inverting a successful `update_content`. -/
theorem update_content_ok {s : Store} {eid : Nat} {d : UpdateContentReq}
    {now : Nat} {s' : Store} {ua : Nat}
    (hok : update_content s eid d now = .ok (s', ua)) :
    ∃ cj, d.content_json = some cj ∧ ua = now ∧
      (∃ c ∈ s.list_contents, c.id = eid) ∧
      s'.index_entries = s.index_entries.map (fun e =>
        if e.id = eid then
          { e with order := (orderArg d.order).getD e.order,
                   updated_at := now }
        else e) ∧
      s'.list_contents = s.list_contents.map (fun c =>
        if c.id = eid then
          { c with content_json := cj, updated_at := now,
                   order := (orderArg d.order).getD c.order }
        else c) := by
  unfold update_content at hok
  cases hcj : d.content_json with
  | none => rw [hcj] at hok; exact Except.noConfusion hok
  | some cj =>
    rw [hcj] at hok
    simp only at hok
    split at hok
    · exact Except.noConfusion hok
    · rename_i hall
      simp only [Except.ok.injEq, Prod.mk.injEq] at hok
      obtain ⟨hs, hua⟩ := hok
      subst hs; subst hua
      exact ⟨cj, rfl, rfl, by simpa using hall, rfl, rfl⟩

/-- Inverting a successful `update_entity_meta`. -/
theorem update_entity_meta_ok {s : Store} {eid : Nat} {d : UpdateMetaReq}
    {now : Nat} {s' : Store} {ua : Nat}
    (hok : update_entity_meta s eid d now = .ok (s', ua)) :
    ua = now ∧ (∃ e ∈ s.index_entries, e.id = eid) ∧
      s'.index_entries = s.index_entries.map (fun e =>
        if e.id = eid then applyMetaUpdates d now e else e) ∧
      s'.list_contents =
        (match orderArg d.order with
         | some v => s.list_contents.map (fun c =>
             if c.id = eid then { c with order := v, updated_at := now }
             else c)
         | none => s.list_contents) := by
  unfold update_entity_meta at hok
  split at hok
  · exact Except.noConfusion hok
  · rename_i hall
    simp only [Except.ok.injEq, Prod.mk.injEq] at hok
    obtain ⟨hs, hua⟩ := hok
    subst hs; subst hua
    exact ⟨rfl, by simpa using hall, rfl, rfl⟩

/-- Inverting a successful `update_entity_order`. -/
theorem update_entity_order_ok {s : Store} {eid : Nat} {d : UpdateOrderReq}
    {now : Nat} {s' : Store} {ua : Nat} {o : Int}
    (hok : update_entity_order s eid d now = .ok (s', ua, o)) :
    d.order = some o ∧ ua = now ∧ (∃ e ∈ s.index_entries, e.id = eid) ∧
      s'.index_entries = s.index_entries.map (fun e =>
        if e.id = eid then { e with order := o, updated_at := now } else e) ∧
      s'.list_contents = s.list_contents.map (fun c =>
        if c.id = eid then { c with order := o, updated_at := now }
        else c) := by
  unfold update_entity_order at hok
  cases hord : d.order with
  | none => rw [hord] at hok; exact Except.noConfusion hok
  | some v =>
    rw [hord] at hok
    simp only at hok
    split at hok
    · exact Except.noConfusion hok
    · rename_i hall
      simp only [Except.ok.injEq, Prod.mk.injEq] at hok
      obtain ⟨hs, hua, hv⟩ := hok
      subst hs; subst hua; subst hv
      exact ⟨rfl, rfl, by simpa using hall, rfl, rfl⟩

/-! ### The duplicated-order invariant (C1) -/

/-- The duplicated-state invariant: wherever an `index_entries` row and a
`list_contents` row share an id, they carry the same `order`. -/
def ordersMatch (s : Store) : Prop :=
  ∀ e ∈ s.index_entries, ∀ c ∈ s.list_contents, e.id = c.id → e.order = c.order

/-- Freshness of a generated uuid: no row of either table carries it yet
(what `uuid.uuid4()` guarantees against a store keyed by earlier uuids). -/
def freshId (s : Store) (i : Nat) : Prop :=
  (∀ e ∈ s.index_entries, e.id ≠ i) ∧ (∀ c ∈ s.list_contents, c.id ≠ i)

instance (s : Store) : Decidable (ordersMatch s) := by
  unfold ordersMatch; infer_instance

instance (s : Store) (i : Nat) : Decidable (freshId s i) := by
  unfold freshId; infer_instance

/-- C1: every successful mutation (Create, UpdateContent, UpdateMetadata,
UpdateOrder) preserves the invariant that the `list_contents` order equals
the `index_entries` order for every shared id. -/
theorem duplicated_order_invariant (s : Store) (hinv : ordersMatch s) :
    (∀ d uuid4 now s' r, freshId s uuid4 →
        create_entity s d uuid4 now = .ok (s', r) → ordersMatch s') ∧
    (∀ eid d now s' ua,
        update_content s eid d now = .ok (s', ua) → ordersMatch s') ∧
    (∀ eid d now s' ua,
        update_entity_meta s eid d now = .ok (s', ua) → ordersMatch s') ∧
    (∀ eid d now s' ua o,
        update_entity_order s eid d now = .ok (s', ua, o) →
          ordersMatch s') := by
  refine ⟨?_, ?_, ?_, ?_⟩
  · intro d uuid4 now s' r hfresh hok
    obtain ⟨name, -, -, -, -, -, -, hidx, hlc⟩ := create_entity_ok hok
    intro e he c hc hid
    rw [hidx] at he; rw [hlc] at hc
    rcases List.mem_append.mp he with he | he <;>
      rcases List.mem_append.mp hc with hc | hc
    · exact hinv e he c hc hid
    · simp only [List.mem_singleton] at hc
      subst hc
      exact absurd hid (hfresh.1 e he)
    · simp only [List.mem_singleton] at he
      subst he
      simp only at hid
      exact absurd hid.symm (hfresh.2 c hc)
    · simp only [List.mem_singleton] at he hc
      subst he; subst hc
      rfl
  · intro eid d now s' ua hok
    obtain ⟨cj, -, -, -, hidx, hlc⟩ := update_content_ok hok
    intro e' he' c' hc' hid
    rw [hidx] at he'; rw [hlc] at hc'
    obtain ⟨e, he, rfl⟩ := List.mem_map.mp he'
    obtain ⟨c, hc, rfl⟩ := List.mem_map.mp hc'
    have hide : (if e.id = eid then
        { e with order := (orderArg d.order).getD e.order,
                 updated_at := now } else e).id = e.id := by
      split <;> rfl
    have hidc : (if c.id = eid then
        { c with content_json := cj, updated_at := now,
                 order := (orderArg d.order).getD c.order } else c).id =
          c.id := by
      split <;> rfl
    rw [hide, hidc] at hid
    by_cases heid : e.id = eid <;> by_cases hcid : c.id = eid
    · rw [if_pos heid, if_pos hcid]
      show (orderArg d.order).getD e.order = (orderArg d.order).getD c.order
      rw [hinv e he c hc hid]
    · exact absurd (heid ▸ hid).symm hcid
    · exact absurd (hid.trans hcid) heid
    · rw [if_neg heid, if_neg hcid]
      exact hinv e he c hc hid
  · intro eid d now s' ua hok
    obtain ⟨-, -, hidx, hlc⟩ := update_entity_meta_ok hok
    intro e' he' c' hc' hid
    rw [hidx] at he'; rw [hlc] at hc'
    obtain ⟨e, he, rfl⟩ := List.mem_map.mp he'
    have hide : (if e.id = eid then applyMetaUpdates d now e else e).id =
        e.id := by
      unfold applyMetaUpdates; split <;> rfl
    cases horder : orderArg d.order with
    | none =>
      rw [horder] at hc'
      rw [hide] at hid
      by_cases heid : e.id = eid
      · rw [if_pos heid]
        show (applyMetaUpdates d now e).order = c'.order
        unfold applyMetaUpdates
        simp only [horder, Option.getD_none]
        exact hinv e he c' hc' hid
      · rw [if_neg heid]
        exact hinv e he c' hc' hid
    | some v =>
      rw [horder] at hc'
      obtain ⟨c, hc, rfl⟩ := List.mem_map.mp hc'
      have hidc : (if c.id = eid then
          { c with order := v, updated_at := now } else c).id = c.id := by
        split <;> rfl
      rw [hide, hidc] at hid
      by_cases heid : e.id = eid <;> by_cases hcid : c.id = eid
      · rw [if_pos heid, if_pos hcid]
        show (applyMetaUpdates d now e).order = v
        unfold applyMetaUpdates
        simp [horder]
      · exact absurd (heid ▸ hid).symm hcid
      · exact absurd (hid.trans hcid) heid
      · rw [if_neg heid, if_neg hcid]
        exact hinv e he c hc hid
  · intro eid d now s' ua o hok
    obtain ⟨-, -, -, hidx, hlc⟩ := update_entity_order_ok hok
    intro e' he' c' hc' hid
    rw [hidx] at he'; rw [hlc] at hc'
    obtain ⟨e, he, rfl⟩ := List.mem_map.mp he'
    obtain ⟨c, hc, rfl⟩ := List.mem_map.mp hc'
    have hide : (if e.id = eid then
        { e with order := o, updated_at := now } else e).id = e.id := by
      split <;> rfl
    have hidc : (if c.id = eid then
        { c with order := o, updated_at := now } else c).id = c.id := by
      split <;> rfl
    rw [hide, hidc] at hid
    by_cases heid : e.id = eid <;> by_cases hcid : c.id = eid
    · rw [if_pos heid, if_pos hcid]
    · exact absurd (heid ▸ hid).symm hcid
    · exact absurd (hid.trans hcid) heid
    · rw [if_neg heid, if_neg hcid]
      exact hinv e he c hc hid

/-! ### Append-to-end ordering (C2) -/

theorem foldl_max_mem (x : Int) (xs : List Int) :
    xs.foldl max x = x ∨ xs.foldl max x ∈ xs := by
  induction xs generalizing x with
  | nil => exact Or.inl rfl
  | cons a l ih =>
    rw [List.foldl_cons]
    rcases ih (max x a) with h | h
    · rcases max_choice x a with hm | hm
      · exact Or.inl (h.trans hm)
      · right
        rw [h, hm]
        exact List.mem_cons_self a l
    · exact Or.inr (List.mem_cons_of_mem a h)

theorem le_foldl_max_init (x : Int) (xs : List Int) : x ≤ xs.foldl max x := by
  induction xs generalizing x with
  | nil => exact le_refl x
  | cons a l ih => exact le_trans (le_max_left x a) (ih (max x a))

theorem le_foldl_max_of_mem (x a : Int) (xs : List Int) (ha : a ∈ xs) :
    a ≤ xs.foldl max x := by
  induction xs generalizing x with
  | nil => cases ha
  | cons b l ih =>
    rw [List.foldl_cons]
    rcases List.mem_cons.mp ha with rfl | ha
    · exact le_trans (le_max_right x a) (le_foldl_max_init (max x a) l)
    · exact ih (max x b) ha

theorem next_order_nil (s : Store) (cid : Option Nat)
    (h : s.index_entries.filter (fun e => e.container_id = cid) = []) :
    _next_order_for_container s cid = 0 := by
  unfold _next_order_for_container
  rw [h]
  rfl

theorem next_order_cons (s : Store) (cid : Option Nat) (x : Int)
    (xs : List Int)
    (h : (s.index_entries.filter
        (fun e => e.container_id = cid)).map (fun e => e.order) = x :: xs) :
    _next_order_for_container s cid = xs.foldl max x + 1 := by
  unfold _next_order_for_container
  rw [h]

/-- C2: when `order` is omitted from a Create request, the assigned order is
`0` if the sibling group of the given `container_id` is empty, and otherwise
is strictly greater than every sibling's order while equalling some
sibling's order plus one — i.e. `1 + max(order)` over the siblings. -/
theorem create_default_order (s : Store) (d : CreateReq) (uuid4 now : Nat)
    (s' : Store) (r : CreateResp) (hord : d.order = none)
    (hok : create_entity s d uuid4 now = .ok (s', r)) :
    (s.index_entries.filter (fun e => e.container_id = d.container_id) = [] →
        r.order = 0) ∧
    (∀ e ∈ s.index_entries.filter (fun e => e.container_id = d.container_id),
        e.order < r.order) ∧
    (s.index_entries.filter (fun e => e.container_id = d.container_id) ≠ [] →
        ∃ e ∈ s.index_entries.filter
            (fun e => e.container_id = d.container_id),
          r.order = e.order + 1) := by
  obtain ⟨name, -, -, -, -, -, hro, -, -⟩ := create_entity_ok hok
  rw [hord] at hro
  simp only at hro
  cases hsibs : (s.index_entries.filter
      (fun e => e.container_id = d.container_id)).map (fun e => e.order) with
  | nil =>
    have hfilter : s.index_entries.filter
        (fun e => e.container_id = d.container_id) = [] :=
      List.map_eq_nil_iff.mp hsibs
    rw [next_order_nil s d.container_id hfilter] at hro
    refine ⟨fun _ => hro, ?_, ?_⟩
    · intro e he
      rw [hfilter] at he
      cases he
    · intro hne
      exact absurd hfilter hne
  | cons x xs =>
    rw [next_order_cons s d.container_id x xs hsibs] at hro
    refine ⟨?_, ?_, ?_⟩
    · intro hfilter
      rw [hfilter] at hsibs
      cases hsibs
    · intro e he
      have hm : e.order ∈ x :: xs := hsibs ▸ List.mem_map_of_mem _ he
      rcases List.mem_cons.mp hm with h | h
      · have := le_foldl_max_init x xs
        omega
      · have := le_foldl_max_of_mem x e.order xs h
        omega
    · intro _
      have hmem : xs.foldl max x ∈ x :: xs := by
        rcases foldl_max_mem x xs with h | h
        · rw [h]; exact List.mem_cons_self x xs
        · exact List.mem_cons_of_mem x h
      rw [← hsibs] at hmem
      obtain ⟨e, he, heq⟩ := List.mem_map.mp hmem
      exact ⟨e, he, by rw [hro, heq]⟩

/-! ### Cascade delete (C3) -/

theorem length_filter_mono {α : Type} (l : List α) (p q : α → Bool)
    (h : ∀ x ∈ l, q x = true → p x = true) :
    (l.filter q).length ≤ (l.filter p).length := by
  induction l with
  | nil => exact le_refl 0
  | cons a l ih =>
    have ih' := ih (fun x hx => h x (List.mem_cons_of_mem a hx))
    by_cases hq : q a = true
    · rw [List.filter_cons_of_pos hq,
        List.filter_cons_of_pos (h a (List.mem_cons_self a l) hq)]
      simpa using ih'
    · rw [List.filter_cons_of_neg (by simpa using hq)]
      by_cases hp : p a = true
      · rw [List.filter_cons_of_pos hp]
        exact le_trans ih' (Nat.le_succ _)
      · rw [List.filter_cons_of_neg (by simpa using hp)]
        exact ih'

theorem length_filter_strict {α : Type} (l : List α) (p q : α → Bool)
    (h : ∀ x ∈ l, q x = true → p x = true)
    (x : α) (hx : x ∈ l) (hpx : p x = true) (hqx : q x = false) :
    (l.filter q).length < (l.filter p).length := by
  induction l with
  | nil => cases hx
  | cons a l ih =>
    have hmono := length_filter_mono l p q
      (fun y hy => h y (List.mem_cons_of_mem a hy))
    rcases List.mem_cons.mp hx with rfl | hx'
    · rw [List.filter_cons_of_pos hpx,
        List.filter_cons_of_neg (by simp [hqx])]
      exact Nat.lt_succ_of_le hmono
    · have ih' := ih (fun y hy => h y (List.mem_cons_of_mem a hy)) hx'
      by_cases hq : q a = true
      · rw [List.filter_cons_of_pos hq,
          List.filter_cons_of_pos (h a (List.mem_cons_self a l) hq)]
        simpa using ih'
      · rw [List.filter_cons_of_neg (by simpa using hq)]
        by_cases hp : p a = true
        · rw [List.filter_cons_of_pos hp]
          exact Nat.lt_succ_of_lt ih'
        · rw [List.filter_cons_of_neg (by simpa using hp)]
          exact ih'

theorem mem_childIds (rows : List IndexEntry) (ids : List Nat) (i : Nat) :
    i ∈ childIds rows ids ↔
      ∃ e ∈ rows, e.id = i ∧ e.id ∉ ids ∧ ∃ a ∈ ids,
        e.container_id = some a := by
  unfold childIds
  constructor
  · intro h
    obtain ⟨e, he, heq⟩ := List.mem_map.mp h
    obtain ⟨hmem, hcond⟩ := List.mem_filter.mp he
    rw [Bool.and_eq_true, decide_eq_true_iff] at hcond
    refine ⟨e, hmem, heq, hcond.2, ?_⟩
    cases hcid : e.container_id with
    | none => rw [hcid] at hcond; exact absurd hcond.1 (by simp)
    | some a =>
      rw [hcid] at hcond
      exact ⟨a, by simpa using hcond.1, rfl⟩
  · intro ⟨e, hmem, heq, hnot, a, ha, hcid⟩
    refine List.mem_map.mpr ⟨e, List.mem_filter.mpr ⟨hmem, ?_⟩, heq⟩
    rw [Bool.and_eq_true, decide_eq_true_iff]
    exact ⟨by rw [hcid]; simpa using ha, hnot⟩

theorem cascadeIter_subset (n : Nat) (rows : List IndexEntry)
    (ids : List Nat) : ids ⊆ cascadeIter n rows ids := by
  induction n generalizing ids with
  | zero => exact fun _ h => h
  | succ n ih =>
    unfold cascadeIter
    show ids ⊆ if childIds rows ids = [] then ids
      else cascadeIter n rows (ids ++ childIds rows ids)
    split
    · exact fun _ h => h
    · exact fun x hx => ih _ (List.mem_append.mpr (Or.inl hx))

theorem cascadeIter_closed (n : Nat) (rows : List IndexEntry)
    (ids : List Nat)
    (hfuel : (rows.filter (fun e => decide (e.id ∉ ids))).length < n) :
    ∀ e ∈ rows,
      (∃ a ∈ cascadeIter n rows ids, e.container_id = some a) →
        e.id ∈ cascadeIter n rows ids := by
  induction n generalizing ids with
  | zero => omega
  | succ n ih =>
    unfold cascadeIter
    show ∀ e ∈ rows,
      (∃ a ∈ (if childIds rows ids = [] then ids
          else cascadeIter n rows (ids ++ childIds rows ids)),
        e.container_id = some a) →
      e.id ∈ (if childIds rows ids = [] then ids
          else cascadeIter n rows (ids ++ childIds rows ids))
    split
    · rename_i hnw
      intro e he ⟨a, ha, hcid⟩
      by_cases hid : e.id ∈ ids
      · exact hid
      · exact absurd ((mem_childIds rows ids e.id).mpr
          ⟨e, he, rfl, hid, a, ha, hcid⟩) (by rw [hnw]; simp)
    · rename_i hnw
      apply ih
      obtain ⟨i, hi⟩ := List.exists_mem_of_ne_nil _ hnw
      obtain ⟨e, he, heq, hnot, _, _, _⟩ := (mem_childIds rows ids i).mp hi
      apply Nat.lt_of_lt_of_le
        (length_filter_strict rows _ _ ?_ e he (by simpa using hnot) ?_)
        (Nat.lt_succ_iff.mp hfuel)
      · intro x hx hq
        rw [decide_eq_true_iff] at hq ⊢
        intro hmem
        exact hq (List.mem_append.mpr (Or.inl hmem))
      · rw [decide_eq_false_iff_not]
        simp only [not_not]
        exact List.mem_append.mpr (Or.inr (heq ▸ hi))

/-- A nullable `container_id` reference is intact when it is NULL or names
an existing `index_entries` row. -/
def refOk (rows : List IndexEntry) : Option Nat → Bool
  | some a => rows.any (fun p => p.id = a)
  | none => true

/-- Referential integrity of the store, as the database foreign keys enforce
it: every non-NULL `container_id` (in either table) names an existing
`index_entries` row, and every `list_contents` row shares its id with an
`index_entries` row. -/
def fkIntact (s : Store) : Prop :=
  (∀ e ∈ s.index_entries, refOk s.index_entries e.container_id = true) ∧
  (∀ c ∈ s.list_contents,
      s.index_entries.any (fun p => p.id = c.id) = true ∧
      refOk s.index_entries c.container_id = true)

instance (s : Store) : Decidable (fkIntact s) := by
  unfold fkIntact; infer_instance

/-- C3: Delete(id) removes the `index_entries` row with that id, its
`list_contents` row, and every row of either table whose `container_id` is
that id; it always reports `ok = true`; and when no row matches it leaves
the store unchanged (idempotent no-op). -/
theorem delete_entity_cascades (s : Store) (eid : Nat) (hfk : fkIntact s) :
    (delete_entity s eid).2 = true ∧
    (∀ e ∈ (delete_entity s eid).1.index_entries,
        e.id ≠ eid ∧ e.container_id ≠ some eid) ∧
    (∀ c ∈ (delete_entity s eid).1.list_contents,
        c.id ≠ eid ∧ c.container_id ≠ some eid) ∧
    ((∀ e ∈ s.index_entries, e.id ≠ eid) → (delete_entity s eid).1 = s) := by
  refine ⟨rfl, ?_, ?_, ?_⟩
  · intro e he
    obtain ⟨hmem, hcond⟩ := List.mem_filter.mp he
    rw [decide_eq_true_iff] at hcond
    by_cases hex : s.index_entries.any (fun e => e.id = eid) = true
    · have hdel : deletedIds s eid =
          cascadeIter (s.index_entries.length + 1) s.index_entries [eid] := by
        unfold deletedIds
        rw [if_pos hex]
      have heid : eid ∈ deletedIds s eid := by
        rw [hdel]
        exact cascadeIter_subset _ _ _ (List.mem_singleton.mpr rfl)
      refine ⟨fun h => hcond (h ▸ heid), fun h => ?_⟩
      have hclosed := cascadeIter_closed (s.index_entries.length + 1)
        s.index_entries [eid]
        (Nat.lt_succ_of_le (List.length_filter_le _ _)) e hmem
        ⟨eid, hdel ▸ heid, h⟩
      exact hcond (hdel ▸ hclosed)
    · have hdel : deletedIds s eid = [] := by
        unfold deletedIds
        rw [if_neg hex]
      have hnone : ∀ p ∈ s.index_entries, p.id ≠ eid := by
        intro p hp hpe
        exact hex (List.any_eq_true.mpr ⟨p, hp, by simpa using hpe⟩)
      refine ⟨hnone e hmem, fun h => ?_⟩
      have href := hfk.1 e hmem
      rw [h] at href
      obtain ⟨p, hp, hpe⟩ := List.any_eq_true.mp href
      exact hnone p hp (by simpa using hpe)
  · intro c hc
    obtain ⟨hmem, hcond⟩ := List.mem_filter.mp hc
    rw [Bool.and_eq_true, decide_eq_true_iff] at hcond
    by_cases hex : s.index_entries.any (fun e => e.id = eid) = true
    · have hdel : deletedIds s eid =
          cascadeIter (s.index_entries.length + 1) s.index_entries [eid] := by
        unfold deletedIds
        rw [if_pos hex]
      have heid : eid ∈ deletedIds s eid := by
        rw [hdel]
        exact cascadeIter_subset _ _ _ (List.mem_singleton.mpr rfl)
      refine ⟨fun h => hcond.1 (h ▸ heid), fun h => ?_⟩
      have := hcond.2
      rw [h] at this
      rw [decide_eq_true_iff] at this
      exact this heid
    · have hnone : ∀ p ∈ s.index_entries, p.id ≠ eid := by
        intro p hp hpe
        exact hex (List.any_eq_true.mpr ⟨p, hp, by simpa using hpe⟩)
      obtain ⟨hcid, hccid⟩ := hfk.2 c hmem
      constructor
      · intro h
        obtain ⟨p, hp, hpe⟩ := List.any_eq_true.mp hcid
        exact hnone p hp (by simpa [h] using hpe)
      · intro h
        rw [h] at hccid
        obtain ⟨p, hp, hpe⟩ := List.any_eq_true.mp hccid
        exact hnone p hp (by simpa using hpe)
  · intro hnone
    have hex : s.index_entries.any (fun e => e.id = eid) = false := by
      rw [Bool.eq_false_iff]
      intro h
      obtain ⟨p, hp, hpe⟩ := List.any_eq_true.mp h
      exact hnone p hp (by simpa using hpe)
    have hdel : deletedIds s eid = [] := by
      unfold deletedIds
      rw [if_neg (by simp [hex])]
    show Store.mk _ _ = s
    rw [hdel]
    cases s with
    | mk idx lcs =>
      congr 1
      · exact List.filter_eq_self.mpr (fun a _ => by simp)
      · refine List.filter_eq_self.mpr (fun a _ => ?_)
        cases a.container_id <;> simp

/-! ### The change-feed filter (C4) -/

theorem get_index_some_eq (s : Store) (T : Nat) (sort : String) :
    get_index s (some T) sort =
      if sort = "order" then
        (s.index_entries.filter
            (fun e => decide (T < e.updated_at))).mergeSort idxLe
      else
        (s.index_entries.filter
            (fun e => decide (T < e.updated_at))).mergeSort updLe := rfl

/-- C4: `GET /index?updated_since=T` returns exactly the `index_entries` rows
whose `updated_at` is strictly greater than `T` (as a permutation of the
filtered table); rows with `updated_at = T` are excluded. -/
theorem get_index_updated_since (s : Store) (T : Nat) (sort : String) :
    (get_index s (some T) sort).Perm
        (s.index_entries.filter (fun e => decide (T < e.updated_at))) ∧
    (∀ e ∈ get_index s (some T) sort,
        e ∈ s.index_entries ∧ T < e.updated_at ∧ e.updated_at ≠ T) ∧
    (∀ e ∈ s.index_entries, T < e.updated_at →
        e ∈ get_index s (some T) sort) := by
  have hperm : (get_index s (some T) sort).Perm
      (s.index_entries.filter (fun e => decide (T < e.updated_at))) := by
    rw [get_index_some_eq]
    split
    · exact List.mergeSort_perm _ idxLe
    · exact List.mergeSort_perm _ updLe
  refine ⟨hperm, ?_, ?_⟩
  · intro e he
    have := hperm.mem_iff.mp he
    obtain ⟨hmem, hlt⟩ := List.mem_filter.mp this
    rw [decide_eq_true_iff] at hlt
    exact ⟨hmem, hlt, by omega⟩
  · intro e he hlt
    exact hperm.mem_iff.mpr
      (List.mem_filter.mpr ⟨he, decide_eq_true_iff.mpr hlt⟩)

/-! ### The order sort mode (C5) -/

theorem cidLt_asymm (x y : Option Nat) :
    cidLt x y = true → cidLt y x = true → False := by
  cases x <;> cases y <;> simp [cidLt] <;> omega

theorem cidLt_total (x y : Option Nat) (h : x ≠ y) :
    cidLt x y = true ∨ cidLt y x = true := by
  cases x <;> cases y <;> simp_all [cidLt] <;> omega

theorem cidLt_trans (x y z : Option Nat) :
    cidLt x y = true → cidLt y z = true → cidLt x z = true := by
  cases x <;> cases y <;> cases z <;> simp [cidLt] <;> omega

theorem idxLe_total (a b : IndexEntry) :
    idxLe a b = true ∨ idxLe b a = true := by
  unfold idxLe
  by_cases h : a.container_id = b.container_id
  · rw [if_pos h, if_pos h.symm]
    by_cases ho : a.order = b.order
    · rw [if_pos ho, if_pos ho.symm]
      simp only [decide_eq_true_iff]
      omega
    · rw [if_neg ho, if_neg (fun hh => ho hh.symm)]
      simp only [decide_eq_true_iff]
      omega
  · rw [if_neg h, if_neg (fun hh => h hh.symm)]
    exact cidLt_total _ _ h

theorem idxLe_trans (a b c : IndexEntry) :
    idxLe a b = true → idxLe b c = true → idxLe a c = true := by
  unfold idxLe
  by_cases h1 : a.container_id = b.container_id <;>
    by_cases h2 : b.container_id = c.container_id
  · rw [if_pos h1, if_pos h2, if_pos (h1.trans h2)]
    by_cases o1 : a.order = b.order <;> by_cases o2 : b.order = c.order
    · rw [if_pos o1, if_pos o2, if_pos (o1.trans o2)]
      simp only [decide_eq_true_iff]
      omega
    · rw [if_pos o1, if_neg o2, if_neg (fun hh => o2 (o1 ▸ hh))]
      simp only [decide_eq_true_iff]
      omega
    · rw [if_pos o2, if_neg o1, if_neg (fun hh => o1 (o2 ▸ hh))]
      simp only [decide_eq_true_iff]
      omega
    · rw [if_neg o1, if_neg o2]
      by_cases o3 : a.order = c.order
      · rw [if_pos o3]
        simp only [decide_eq_true_iff]
        omega
      · rw [if_neg o3]
        simp only [decide_eq_true_iff]
        omega
  · rw [if_pos h1, if_neg h2, if_neg (fun h => h2 (h1.symm.trans h)), h1]
    exact fun _ h => h
  · have h3 : ¬a.container_id = c.container_id :=
      fun h => h1 (h.trans h2.symm)
    rw [if_neg h1, if_pos h2, if_neg h3, h2]
    exact fun h _ => h
  · rw [if_neg h1, if_neg h2]
    by_cases h3 : a.container_id = c.container_id
    · rw [if_pos h3]
      intro hab hbc
      rw [h3] at hab
      exact (cidLt_asymm _ _ hab hbc).elim
    · rw [if_neg h3]
      exact cidLt_trans _ _ _

theorem get_index_none_order_eq (s : Store) :
    get_index s none "order" = s.index_entries.mergeSort idxLe := rfl

/-- C5: `GET /index?sort=order` returns the table sorted by
`(container_id asc, order asc, updated_at desc)` (the comparator `idxLe`);
consequently rows sharing a `container_id` are contiguous and have
non-decreasing `order` within the group. -/
theorem get_index_sort_order (s : Store) :
    (get_index s none "order").Perm s.index_entries ∧
    (get_index s none "order").Pairwise (fun a b => idxLe a b = true) ∧
    (∀ i j k : Fin (get_index s none "order").length, i ≤ j → j ≤ k →
        ((get_index s none "order").get i).container_id =
          ((get_index s none "order").get k).container_id →
        ((get_index s none "order").get j).container_id =
          ((get_index s none "order").get i).container_id) ∧
    (∀ i j : Fin (get_index s none "order").length, i ≤ j →
        ((get_index s none "order").get i).container_id =
          ((get_index s none "order").get j).container_id →
        ((get_index s none "order").get i).order ≤
          ((get_index s none "order").get j).order) := by
  have hpair : (get_index s none "order").Pairwise
      (fun a b => idxLe a b = true) := by
    rw [get_index_none_order_eq]
    exact List.sorted_mergeSort idxLe_trans
      (fun a b => Bool.or_eq_true _ _ |>.mpr (idxLe_total a b))
      s.index_entries
  have hget := List.pairwise_iff_get.mp hpair
  refine ⟨?_, hpair, ?_, ?_⟩
  · rw [get_index_none_order_eq]
    exact List.mergeSort_perm _ idxLe
  · intro i j k hij hjk hik
    rcases eq_or_lt_of_le hij with rfl | hij'
    · rfl
    rcases eq_or_lt_of_le hjk with rfl | hjk'
    · exact hik.symm
    have hab := hget i j hij'
    have hbc := hget j k hjk'
    by_contra hne
    unfold idxLe at hab hbc
    rw [if_neg (fun h => hne h.symm)] at hab
    by_cases h2 : ((get_index s none "order").get j).container_id =
        ((get_index s none "order").get k).container_id
    · exact hne (h2.trans hik.symm)
    · rw [if_neg h2, hik.symm] at hbc
      exact cidLt_asymm _ _ hab hbc
  · intro i j hij hcid
    rcases eq_or_lt_of_le hij with rfl | hij'
    · exact le_refl _
    have hab := hget i j hij'
    unfold idxLe at hab
    rw [if_pos hcid] at hab
    by_cases ho : ((get_index s none "order").get i).order =
        ((get_index s none "order").get j).order
    · exact le_of_eq ho
    · rw [if_neg ho] at hab
      rw [decide_eq_true_iff] at hab
      omega

/-! ### The UpdateContent frame (C6) -/

/-- C6: a successful UpdateContent leaves every `index_entries` row's `kind`,
`container_id`, `name`, `emoji`, `color` and `opened_at` unchanged; rows
other than the target are untouched entirely; the target row's `updated_at`
is set to the operation's timestamp; and `order` (on both tables) changes
only when the request supplies a non-null `order`. -/
theorem update_content_frame (s : Store) (eid : Nat) (d : UpdateContentReq)
    (now : Nat) (s' : Store) (ua : Nat)
    (hok : update_content s eid d now = .ok (s', ua)) :
    ua = now ∧
    s'.index_entries.length = s.index_entries.length ∧
    (∀ i (hi : i < s.index_entries.length)
        (hi' : i < s'.index_entries.length),
      (s'.index_entries.get ⟨i, hi'⟩).kind =
        (s.index_entries.get ⟨i, hi⟩).kind ∧
      (s'.index_entries.get ⟨i, hi'⟩).container_id =
        (s.index_entries.get ⟨i, hi⟩).container_id ∧
      (s'.index_entries.get ⟨i, hi'⟩).name =
        (s.index_entries.get ⟨i, hi⟩).name ∧
      (s'.index_entries.get ⟨i, hi'⟩).emoji =
        (s.index_entries.get ⟨i, hi⟩).emoji ∧
      (s'.index_entries.get ⟨i, hi'⟩).color =
        (s.index_entries.get ⟨i, hi⟩).color ∧
      (s'.index_entries.get ⟨i, hi'⟩).opened_at =
        (s.index_entries.get ⟨i, hi⟩).opened_at ∧
      ((s.index_entries.get ⟨i, hi⟩).id = eid →
        (s'.index_entries.get ⟨i, hi'⟩).updated_at = now) ∧
      ((s.index_entries.get ⟨i, hi⟩).id ≠ eid →
        s'.index_entries.get ⟨i, hi'⟩ = s.index_entries.get ⟨i, hi⟩) ∧
      (orderArg d.order = none →
        (s'.index_entries.get ⟨i, hi'⟩).order =
          (s.index_entries.get ⟨i, hi⟩).order) ∧
      (∀ v, orderArg d.order = some v →
        (s.index_entries.get ⟨i, hi⟩).id = eid →
        (s'.index_entries.get ⟨i, hi'⟩).order = v)) ∧
    s'.list_contents.length = s.list_contents.length ∧
    (∀ j (hj : j < s.list_contents.length)
        (hj' : j < s'.list_contents.length),
      (orderArg d.order = none →
        (s'.list_contents.get ⟨j, hj'⟩).order =
          (s.list_contents.get ⟨j, hj⟩).order) ∧
      (∀ v, orderArg d.order = some v →
        (s.list_contents.get ⟨j, hj⟩).id = eid →
        (s'.list_contents.get ⟨j, hj'⟩).order = v) ∧
      ((s.list_contents.get ⟨j, hj⟩).id = eid →
        (s'.list_contents.get ⟨j, hj'⟩).updated_at = now)) := by
  obtain ⟨cj, -, hua, -, hidx, hlc⟩ := update_content_ok hok
  refine ⟨hua, by rw [hidx, List.length_map], ?_,
    by rw [hlc, List.length_map], ?_⟩
  · intro i hi hi'
    have hval : s'.index_entries.get ⟨i, hi'⟩ =
        (fun e => if e.id = eid then
          { e with order := (orderArg d.order).getD e.order,
                   updated_at := now }
         else e) (s.index_entries.get ⟨i, hi⟩) := by
      rw [List.get_eq_getElem, List.get_eq_getElem]
      simp only [hidx, List.getElem_map]
    rw [hval]
    dsimp only
    by_cases hid : (s.index_entries.get ⟨i, hi⟩).id = eid
    · rw [if_pos hid]
      refine ⟨rfl, rfl, rfl, rfl, rfl, rfl, fun _ => rfl,
        fun h => absurd hid h, fun h => ?_, fun v hv _ => ?_⟩
      · show ((orderArg d.order).getD _) = _
        rw [h, Option.getD_none]
      · show ((orderArg d.order).getD _) = _
        rw [hv, Option.getD_some]
    · rw [if_neg hid]
      exact ⟨rfl, rfl, rfl, rfl, rfl, rfl, fun h => absurd h hid,
        fun _ => rfl, fun _ => rfl, fun v hv h => absurd h hid⟩
  · intro j hj hj'
    have hval : s'.list_contents.get ⟨j, hj'⟩ =
        (fun c => if c.id = eid then
          { c with content_json := cj, updated_at := now,
                   order := (orderArg d.order).getD c.order }
         else c) (s.list_contents.get ⟨j, hj⟩) := by
      rw [List.get_eq_getElem, List.get_eq_getElem]
      simp only [hlc, List.getElem_map]
    rw [hval]
    dsimp only
    by_cases hid : (s.list_contents.get ⟨j, hj⟩).id = eid
    · rw [if_pos hid]
      refine ⟨fun h => ?_, fun v hv _ => ?_, fun _ => rfl⟩
      · show ((orderArg d.order).getD _) = _
        rw [h, Option.getD_none]
      · show ((orderArg d.order).getD _) = _
        rw [hv, Option.getD_some]
    · rw [if_neg hid]
      exact ⟨fun _ => rfl, fun v hv h => absurd h hid, fun h => absurd h hid⟩

/-! ### The Create/GetContent round-trip (C7) -/

/-- C7: after a successful Create with an explicit `content_json`, GetContent
on the returned id yields exactly the submitted document. -/
theorem create_get_content_roundtrip (s : Store) (d : CreateReq)
    (uuid4 now : Nat) (s' : Store) (r : CreateResp) (cj : Json)
    (hfresh : ∀ c ∈ s.list_contents, c.id ≠ uuid4)
    (hcj : d.content_json = some cj)
    (hok : create_entity s d uuid4 now = .ok (s', r)) :
    ∃ resp, get_content s' r.id = .ok resp ∧ resp.content_json = cj := by
  obtain ⟨name, -, -, hrid, -, -, -, -, hlc⟩ := create_entity_ok hok
  unfold get_content
  rw [hlc, hrid, List.find?_append]
  have hnone : s.list_contents.find? (fun c => c.id = uuid4) = none := by
    rw [List.find?_eq_none]
    intro c hc
    simpa using hfresh c hc
  rw [hnone, Option.none_or]
  rw [List.find?_cons]
  simp only [decide_True, decide_eq_true_iff]
  refine ⟨_, rfl, ?_⟩
  show (d.content_json.getD Json.emptyObj) = cj
  rw [hcj, Option.getD_some]

/-! ### Create validation (C8) -/

/-- Discriminates the `abort(400, ...)` outcome from every other outcome. -/
def isInvalidArgument {α : Type} : Except ApiError α → Bool
  | .error (.invalidArgument _) => true
  | _ => false

/-- A Create request with a valid kind but no `name` key at all. -/
def missingNameReq : CreateReq :=
  { kind := some "list", name := none, emoji := none, color := none,
    content_json := none, container_id := none, order := none }

/-- C8 counterexample: with a valid kind but the required `name` field
missing from the body, Create does not fail with InvalidArgument (400): the
`d["name"]` lookup raises an uncaught KeyError (an HTTP 500). -/
theorem create_missing_name_keyerror :
    create_entity ⟨[], []⟩ missingNameReq 0 0 = .error (.keyError "name") ∧
    isInvalidArgument (create_entity ⟨[], []⟩ missingNameReq 0 0) = false :=
  ⟨rfl, rfl⟩

/-- C8 (amended): Create fails with InvalidArgument (400) whenever `kind` is
not one of project/process/list, and whenever `kind` is project or process,
`name` is present, and a non-null `container_id` is provided; a missing
`name` with a valid kind instead raises KeyError (HTTP 500). -/
theorem create_validation (s : Store) (d : CreateReq) (uuid4 now : Nat) :
    (kindOk d.kind = false →
        create_entity s d uuid4 now =
          .error (.invalidArgument "kind must be project | process | list")) ∧
    (kindOk d.kind = true → d.name = none →
        create_entity s d uuid4 now = .error (.keyError "name")) ∧
    (∀ nm, d.name = some nm →
        (d.kind = some "project" ∨ d.kind = some "process") →
        d.container_id ≠ none →
        create_entity s d uuid4 now =
          .error (.invalidArgument "containers cannot have container_id")) := by
  refine ⟨?_, ?_, ?_⟩
  · intro h
    unfold create_entity
    rw [if_pos h]
  · intro hk hn
    unfold create_entity
    rw [if_neg (by simp [hk]), hn]
  · intro nm hn hkind hcid
    have hk : kindOk d.kind = true := by
      rcases hkind with h | h <;> simp [kindOk, h]
    have hguard : ((d.kind = some "project" || d.kind = some "process") &&
        !(d.container_id = none)) = true := by
      rw [Bool.and_eq_true]
      constructor
      · rcases hkind with h | h <;> simp [h]
      · simp [hcid]
    unfold create_entity
    rw [if_neg (by simp [hk]), hn]
    simp only
    rw [if_pos (by rw [hguard])]

/-! ### UpdateMetadata semantics (C9) -/

/-- C9: UpdateMetadata applies exactly the provided fields to the matching
`index_entries` row (leaving `name`/`emoji`/`color` unchanged when omitted,
and setting `opened_at` to the current time when `mark_opened` is true),
always bumps `updated_at`, leaves every other row untouched, and fails with
NotFound when no row matches the id. -/
theorem update_entity_meta_spec (s : Store) (eid : Nat) (d : UpdateMetaReq)
    (now : Nat) :
    ((∀ e ∈ s.index_entries, e.id ≠ eid) →
        update_entity_meta s eid d now = .error .notFound) ∧
    (∀ s' ua, update_entity_meta s eid d now = .ok (s', ua) →
      ua = now ∧
      s'.index_entries.length = s.index_entries.length ∧
      (∀ i (hi : i < s.index_entries.length)
          (hi' : i < s'.index_entries.length),
        ((s.index_entries.get ⟨i, hi⟩).id ≠ eid →
            s'.index_entries.get ⟨i, hi'⟩ = s.index_entries.get ⟨i, hi⟩) ∧
        ((s.index_entries.get ⟨i, hi⟩).id = eid →
          (s'.index_entries.get ⟨i, hi'⟩).updated_at = now ∧
          (s'.index_entries.get ⟨i, hi'⟩).kind =
            (s.index_entries.get ⟨i, hi⟩).kind ∧
          (s'.index_entries.get ⟨i, hi'⟩).container_id =
            (s.index_entries.get ⟨i, hi⟩).container_id ∧
          (d.name = none → (s'.index_entries.get ⟨i, hi'⟩).name =
            (s.index_entries.get ⟨i, hi⟩).name) ∧
          (∀ v, d.name = some v →
            (s'.index_entries.get ⟨i, hi'⟩).name = v) ∧
          (d.emoji = none → (s'.index_entries.get ⟨i, hi'⟩).emoji =
            (s.index_entries.get ⟨i, hi⟩).emoji) ∧
          (∀ v, d.emoji = some v →
            (s'.index_entries.get ⟨i, hi'⟩).emoji = v) ∧
          (d.color = none → (s'.index_entries.get ⟨i, hi'⟩).color =
            (s.index_entries.get ⟨i, hi⟩).color) ∧
          (∀ v, d.color = some v →
            (s'.index_entries.get ⟨i, hi'⟩).color = v) ∧
          (d.mark_opened = true →
            (s'.index_entries.get ⟨i, hi'⟩).opened_at = some now) ∧
          (d.mark_opened = false →
            (s'.index_entries.get ⟨i, hi'⟩).opened_at =
              (s.index_entries.get ⟨i, hi⟩).opened_at) ∧
          (orderArg d.order = none →
            (s'.index_entries.get ⟨i, hi'⟩).order =
              (s.index_entries.get ⟨i, hi⟩).order) ∧
          (∀ v, orderArg d.order = some v →
            (s'.index_entries.get ⟨i, hi'⟩).order = v)))) := by
  constructor
  · intro h
    unfold update_entity_meta
    rw [if_pos (List.all_eq_true.mpr (fun e he => by simpa using h e he))]
  · intro s' ua hok
    obtain ⟨hua, -, hidx, -⟩ := update_entity_meta_ok hok
    refine ⟨hua, by rw [hidx, List.length_map], ?_⟩
    intro i hi hi'
    have hval : s'.index_entries.get ⟨i, hi'⟩ =
        (fun e => if e.id = eid then applyMetaUpdates d now e else e)
          (s.index_entries.get ⟨i, hi⟩) := by
      rw [List.get_eq_getElem, List.get_eq_getElem]
      simp only [hidx, List.getElem_map]
    rw [hval]
    dsimp only
    by_cases hid : (s.index_entries.get ⟨i, hi⟩).id = eid
    · rw [if_pos hid]
      refine ⟨fun h => absurd hid h, fun _ => ?_⟩
      unfold applyMetaUpdates
      refine ⟨rfl, rfl, rfl, fun h => ?_, fun v hv => ?_, fun h => ?_,
        fun v hv => ?_, fun h => ?_, fun v hv => ?_, fun h => ?_,
        fun h => ?_, fun h => ?_, fun v hv => ?_⟩
      · show d.name.getD _ = _
        rw [h, Option.getD_none]
      · show d.name.getD _ = _
        rw [hv, Option.getD_some]
      · show (match d.emoji with
          | some v => v
          | none => (s.index_entries.get ⟨i, hi⟩).emoji) = _
        rw [h]
      · show (match d.emoji with
          | some v => v
          | none => (s.index_entries.get ⟨i, hi⟩).emoji) = _
        rw [hv]
      · show d.color.getD _ = _
        rw [h, Option.getD_none]
      · show d.color.getD _ = _
        rw [hv, Option.getD_some]
      · show (if d.mark_opened then some now else _) = _
        rw [if_pos h]
      · show (if d.mark_opened then some now else _) = _
        rw [if_neg (by simp [h])]
      · show (orderArg d.order).getD _ = _
        rw [h, Option.getD_none]
      · show (orderArg d.order).getD _ = _
        rw [hv, Option.getD_some]
    · rw [if_neg hid]
      exact ⟨fun _ => rfl, fun h => absurd h hid⟩

/-! ### A null `order` is an omitted `order` (C10) -/

/-- C10: for UpdateContent and UpdateMetadata, a body carrying
`"order": null` behaves exactly as if the key were omitted — the outcome is
identical, and on success the `order` columns of both tables are unchanged
(the operation does not fail because of the null). -/
theorem order_null_is_omitted (s : Store) (eid now : Nat)
    (dc : UpdateContentReq) (dm : UpdateMetaReq) :
    update_content s eid { dc with order := some none } now =
      update_content s eid { dc with order := none } now ∧
    update_entity_meta s eid { dm with order := some none } now =
      update_entity_meta s eid { dm with order := none } now ∧
    ((∃ cj, dc.content_json = some cj) →
      (∃ c ∈ s.list_contents, c.id = eid) →
      ∃ s' ua,
        update_content s eid { dc with order := some none } now =
          .ok (s', ua) ∧
        s'.index_entries.map (fun e => e.order) =
          s.index_entries.map (fun e => e.order) ∧
        s'.list_contents.map (fun c => c.order) =
          s.list_contents.map (fun c => c.order)) ∧
    ((∃ e ∈ s.index_entries, e.id = eid) →
      ∃ s' ua,
        update_entity_meta s eid { dm with order := some none } now =
          .ok (s', ua) ∧
        s'.index_entries.map (fun e => e.order) =
          s.index_entries.map (fun e => e.order) ∧
        s'.list_contents.map (fun c => c.order) =
          s.list_contents.map (fun c => c.order)) := by
  refine ⟨rfl, rfl, ?_, ?_⟩
  · intro ⟨cj, hcj⟩ ⟨c0, hc0, hc0id⟩
    unfold update_content
    rw [hcj]
    dsimp only
    have hnot : ¬((s.list_contents.all
        fun c => decide (c.id ≠ eid)) = true) := by
      intro hall
      have hx := List.all_eq_true.mp hall c0 hc0
      rw [decide_eq_true_iff] at hx
      exact hx hc0id
    rw [if_neg hnot]
    refine ⟨_, _, rfl, ?_, ?_⟩
    · rw [List.map_map]
      refine List.map_congr_left (fun e _ => ?_)
      show (if e.id = eid then
        { e with order := (orderArg (some none)).getD e.order,
                 updated_at := now } else e).order = e.order
      split <;> rfl
    · rw [List.map_map]
      refine List.map_congr_left (fun c _ => ?_)
      show (if c.id = eid then
        { c with content_json := cj, updated_at := now,
                 order := (orderArg (some none)).getD c.order }
        else c).order = c.order
      split <;> rfl
  · intro ⟨e0, he0, he0id⟩
    unfold update_entity_meta
    dsimp only
    have hnot : ¬((s.index_entries.all
        fun e => decide (e.id ≠ eid)) = true) := by
      intro hall
      have hx := List.all_eq_true.mp hall e0 he0
      rw [decide_eq_true_iff] at hx
      exact hx he0id
    rw [if_neg hnot]
    refine ⟨_, _, rfl, ?_, rfl⟩
    rw [List.map_map]
    refine List.map_congr_left (fun e _ => ?_)
    show (if e.id = eid then applyMetaUpdates _ now e else e).order = e.order
    unfold applyMetaUpdates
    split <;> rfl

/-! ### Concrete witness fixtures -/

/-- Project the store out of a successful handler result. -/
def okStore {α : Type} : Except ApiError (Store × α) → Store
  | .ok (st, _) => st
  | .error _ => ⟨[], []⟩

/-- Project the response out of a successful handler result. -/
def okSnd {α : Type} (dflt : α) : Except ApiError (Store × α) → α
  | .ok (_, r) => r
  | .error _ => dflt

def wRow1 : IndexEntry :=
  { id := 1, kind := "project", container_id := none, name := "P",
    emoji := none, color := 0, order := 0, opened_at := none,
    updated_at := 10 }

def wRow2 : IndexEntry :=
  { id := 2, kind := "list", container_id := some 1, name := "L",
    emoji := none, color := 0, order := 3, opened_at := none,
    updated_at := 11 }

def wCon1 : ListContent :=
  { id := 1, container_id := none, order := 0, content_json := ⟨"a"⟩,
    updated_at := 10 }

def wCon2 : ListContent :=
  { id := 2, container_id := some 1, order := 3, content_json := ⟨"b"⟩,
    updated_at := 11 }

def wStore : Store :=
  { index_entries := [wRow1, wRow2], list_contents := [wCon1, wCon2] }

def wCreateReq : CreateReq :=
  { kind := some "list", name := some "X", emoji := none, color := none,
    content_json := some ⟨"w"⟩, container_id := some 1, order := none }

def wDefaultResp : CreateResp :=
  { id := 0, kind := "", container_id := none, order := 0 }

def wUC : UpdateContentReq :=
  { content_json := some ⟨"x"⟩, order := some (some 7) }

def wMeta : UpdateMetaReq :=
  { name := none, emoji := none, color := none, mark_opened := true,
    order := none }

def wBadKindReq : CreateReq := { wCreateReq with kind := some "bogus" }

def wProjContainerReq : CreateReq :=
  { wCreateReq with kind := some "project", name := some "P2" }

/-- Witness for C1: the invariant holds after a concrete successful create
on a concrete store satisfying it. -/
theorem duplicated_order_invariant_witness :
    ordersMatch (okStore (create_entity wStore wCreateReq 9 20)) :=
  (duplicated_order_invariant wStore (by decide)).1 wCreateReq 9 20
    (okStore (create_entity wStore wCreateReq 9 20))
    (okSnd wDefaultResp (create_entity wStore wCreateReq 9 20))
    (by decide) rfl

/-- Witness for C2: creating a second list under container 1 (which has one
sibling of order 3) assigns that sibling's order plus one. -/
theorem create_default_order_witness :
    ∃ e ∈ wStore.index_entries.filter
        (fun e => e.container_id = wCreateReq.container_id),
      (okSnd wDefaultResp (create_entity wStore wCreateReq 9 20)).order =
        e.order + 1 :=
  (create_default_order wStore wCreateReq 9 20
    (okStore (create_entity wStore wCreateReq 9 20))
    (okSnd wDefaultResp (create_entity wStore wCreateReq 9 20))
    rfl rfl).2.2 (by decide)

/-- Witness for C3: deleting an id with no matching row leaves the concrete
store untouched. -/
theorem delete_entity_cascades_witness :
    (delete_entity wStore 7).1 = wStore :=
  (delete_entity_cascades wStore 7 (by decide)).2.2.2 (by decide)

/-- Witness for C4: a row strictly newer than the watermark is returned. -/
theorem get_index_updated_since_witness :
    wRow2 ∈ get_index wStore (some 10) "updated_at" :=
  (get_index_updated_since wStore 10 "updated_at").2.2 wRow2 (by decide)
    (by decide)

/-- Witness for C5: the order-sorted listing of the concrete store is a
permutation of its table. -/
theorem get_index_sort_order_witness :
    (get_index wStore none "order").Perm wStore.index_entries :=
  (get_index_sort_order wStore).1

/-- Witness for C6: a concrete successful UpdateContent reports the request
timestamp and preserves the table length. -/
theorem update_content_frame_witness :
    okSnd 0 (update_content wStore 2 wUC 30) = 30 ∧
    (okStore (update_content wStore 2 wUC 30)).index_entries.length =
      wStore.index_entries.length :=
  ⟨(update_content_frame wStore 2 wUC 30
      (okStore (update_content wStore 2 wUC 30))
      (okSnd 0 (update_content wStore 2 wUC 30)) rfl).1,
   (update_content_frame wStore 2 wUC 30
      (okStore (update_content wStore 2 wUC 30))
      (okSnd 0 (update_content wStore 2 wUC 30)) rfl).2.1⟩

/-- Witness for C7: the concrete round-trip returns the submitted blob. -/
theorem create_get_content_roundtrip_witness :
    ∃ resp, get_content (okStore (create_entity wStore wCreateReq 9 20))
        (okSnd wDefaultResp (create_entity wStore wCreateReq 9 20)).id =
      .ok resp ∧ resp.content_json = ⟨"w"⟩ :=
  create_get_content_roundtrip wStore wCreateReq 9 20
    (okStore (create_entity wStore wCreateReq 9 20))
    (okSnd wDefaultResp (create_entity wStore wCreateReq 9 20))
    ⟨"w"⟩ (by decide) rfl rfl

/-- Witness for C8 (amended): a bogus kind and a project with a container
each produce the corresponding InvalidArgument outcome. -/
theorem create_validation_witness :
    create_entity ⟨[], []⟩ wBadKindReq 0 0 =
      .error (.invalidArgument "kind must be project | process | list") ∧
    create_entity ⟨[], []⟩ wProjContainerReq 0 0 =
      .error (.invalidArgument "containers cannot have container_id") :=
  ⟨(create_validation ⟨[], []⟩ wBadKindReq 0 0).1 (by decide),
   (create_validation ⟨[], []⟩ wProjContainerReq 0 0).2.2 "P2" rfl
     (Or.inl rfl) (by decide)⟩

/-- Witness for C9: updating metadata of an absent id fails with NotFound. -/
theorem update_entity_meta_spec_witness :
    update_entity_meta wStore 9 wMeta 20 = .error .notFound :=
  (update_entity_meta_spec wStore 9 wMeta 20).1 (by decide)

/-- Witness for C10: on a concrete store and request, a null `order` gives
the identical outcome to an omitted `order`. -/
theorem order_null_is_omitted_witness :
    update_content wStore 2 { wUC with order := some none } 30 =
      update_content wStore 2 { wUC with order := none } 30 :=
  (order_null_is_omitted wStore 2 30 wUC wMeta).1

end SystemApp
